import Mathlib

/-!
Shallow embedding of `ml-agents/mlagents/trainers/sac/policy.py` (class
`SACPolicy`) and proofs about the claims of the specification.

Scalars carried by observation/reward tensors are modelled as `Int` (the
orchestration code only moves, reshapes and flattens values; it performs no
arithmetic on them).  numpy arrays are modelled as `NDArr` (explicit shape +
row-major data) and 2-D memory arrays as `Mat`.  The TensorFlow session is
modelled as an explicit `SessState` threaded through the calls, with an
execution counter standing for `sess.run` invocations; the numeric model
itself (loss values, gradient steps, Polyak averaging) is an external
collaborator and enters as function parameters.
-/

set_option autoImplicit false

/-- A numpy n-dimensional array: explicit shape and row-major data. -/
structure NDArr where
  shape : List Nat
  data : List Int
deriving DecidableEq, Repr

/-- numpy `flatten`: shape becomes one-dimensional, data unchanged. -/
def NDArr.flat (a : NDArr) : NDArr := ⟨[a.data.length], a.data⟩

/-- numpy `reshape([-1, d1, ..., dk])`: the leading `-1` dimension is resolved
as total size divided by the product of the given dimensions. -/
def reshapeNeg1 (dims : List Nat) (a : NDArr) : NDArr :=
  ⟨(a.data.length / dims.prod) :: dims, a.data⟩

/-- A 2-D numpy array with explicit row and column counts (so that an array
with zero rows or zero columns still knows its shape, as numpy does). -/
structure Mat where
  rows : Nat
  cols : Nat
  data : List (List Int)
deriving DecidableEq, Repr

/-- Whether every entry of a `Mat` is zero. -/
def Mat.isZero (m : Mat) : Bool :=
  m.data.all (fun r => r.all (fun x => x == 0))

/-- Row `idx` of a `Mat` (matching `m.data[idx]`; claims always supply an
in-range index). -/
def Mat.row (m : Mat) (idx : Nat) : List Int := m.data.getD idx []

/-- Configuration and feature flags of the policy, drawn from `trainer_params`
and the `brain` as read in `SACPolicy.__init__` / the base `Policy`. -/
structure PolicyConfig where
  use_recurrent : Bool
  use_continuous_act : Bool
  use_vec_obs : Bool
  normalize : Bool
  is_training : Bool
  load : Bool
  m_size : Nat
  sequence_length : Nat
  vec_obs_size : Nat
  act_size : List Nat
  vis_obs_size : Nat
  reward_signals : List String
  reward_strength : List Int
deriving DecidableEq, Repr

/-- A `BrainInfo` observation batch as used by `SACPolicy`. -/
structure BrainInfo where
  agents : List Nat
  vector_observations : List (List Int)
  visual_observations : List (List NDArr)
  memories : Mat
  previous_vector_actions : Mat
deriving DecidableEq, Repr

/-- The recognized reward-signal names, in the order in which
`SACPolicy.__init__` checks for them (lines 54-78): `extrinsic`, then
`curiosity`, then `gail`, then `entropy`. -/
def recognizedSignals : List String := ["extrinsic", "curiosity", "gail", "entropy"]

/-- Key order of a Python dict built by repeated insertion: first occurrence
of each key, in order (later duplicates overwrite the value, not the slot). -/
def dedupFirstAux (seen : List String) : List String → List String
  | [] => []
  | x :: xs =>
    if x ∈ seen then dedupFirstAux seen xs
    else x :: dedupFirstAux (x :: seen) xs

/-- Key order of `dict(zip(...))` applied to a list of keys. -/
def dedupFirst (l : List String) : List String := dedupFirstAux [] l

/-- `stream_names = list(reward_strengths.keys())` where
`reward_strengths = dict(zip(trainer_params["reward_signals"],
trainer_params["reward_strength"]))` (lines 31-33, 47): the configured
signal names paired with strengths, deduplicated in first-occurrence order. -/
def stream_names (cfg : PolicyConfig) : List String :=
  dedupFirst ((cfg.reward_signals.zip cfg.reward_strength).map Prod.fst)

/-- Iteration order of `self.reward_signals.keys()`: the registry dict is
populated by the fixed sequence of membership checks in `__init__`
(lines 54-78), so its keys appear in `recognizedSignals` order, restricted
to the names present in the configured strength mapping. -/
def rewardSignalsKeys (cfg : PolicyConfig) : List String :=
  recognizedSignals.filter (fun n => n ∈ stream_names cfg)

/-- Slot index assigned to a signal name when the model's parallel
reward-input slots are created.  Modelled from the spec for the part living
in `SACModel` (not in src): the model is handed
`stream_names=list(reward_strengths.keys())` (line 47) and creates its
`rewards_holders` "sized to the registered signal count" one per stream
name in that order, so the slot assigned to `name` at construction is its
index in `stream_names`. -/
def constructionSlot (cfg : PolicyConfig) (name : String) : Nat :=
  (stream_names cfg).indexOf name

/-- Slot index a signal name's reward column is bound to during `update`
(lines 171-174): `for i, name in enumerate(self.reward_signals.keys()):
feed_dict[self.model.rewards_holders[i]] = ...`, i.e. the name's position in
the registry's iteration order. -/
def updateSlot (cfg : PolicyConfig) (name : String) : Nat :=
  (rewardSignalsKeys cfg).indexOf name

/-- Named bindable input slots of the `SACModel` referenced by the feed
dictionaries in `policy.py`. -/
inductive ModelNode where
  | batch_size
  | sequence_length
  | mask_input
  | rewards_holders (i : Nat)
  | action_holder
  | prev_action
  | action_masks
  | vector_in
  | next_vector_in
  | visual_in (i : Nat)
  | next_visual_in (i : Nat)
  | memory_in
  | dones_holder
deriving DecidableEq, Repr

/-- A value bound to a model input slot in a feed dictionary. -/
inductive FeedValue where
  | nat (n : Nat)
  | arr (a : NDArr)
  | mat (m : Mat)
  | imgs (xs : List NDArr)
deriving DecidableEq, Repr

/-- A feed dictionary: bindings in insertion order (each key bound once per
call in this code, so first-match lookup agrees with Python dict lookup). -/
abbrev FeedDict := List (ModelNode × FeedValue)

/-- Dictionary lookup in a feed dict. -/
def fdLookup : FeedDict → ModelNode → Option FeedValue
  | [], _ => none
  | (k, v) :: rest, key => if k = key then some v else fdLookup rest key

/-- Modelled from the spec: `Policy.make_empty_memory` lives in the base
`Policy` class (not in src); per the spec it yields "a zero-initialized
array sized (agentCount, memorySize)". -/
def make_empty_memory (cfg : PolicyConfig) (n : Nat) : Mat :=
  ⟨n, cfg.m_size, List.replicate n (List.replicate cfg.m_size 0)⟩

/-- Row-major flattening of a `Mat` into an `NDArr`, as numpy `reshape` views
a 2-D array. -/
def Mat.toNDArr (m : Mat) : NDArr := ⟨[m.rows, m.cols], m.data.flatten⟩

/-- Feed-dictionary construction of `SACPolicy.evaluate` (lines 135-149),
together with the possibly mutated `BrainInfo` (the lazy zero-memory seed at
lines 147-148 overwrites `brain_info.memories` in place).  The observation
bindings added afterwards by `fill_eval_dict` live in the base `Policy`
class (not in src) and are outside this frame. -/
def evaluateFeed (cfg : PolicyConfig) (bi : BrainInfo) : FeedDict × BrainInfo :=
  let fd : FeedDict :=
    [(.batch_size, .nat bi.vector_observations.length), (.sequence_length, .nat 1)]
  if cfg.use_recurrent then
    let fd :=
      if !cfg.use_continuous_act then
        fd ++ [(.prev_action,
          .arr (reshapeNeg1 [cfg.act_size.length] bi.previous_vector_actions.toNDArr))]
      else fd
    let bi :=
      if bi.memories.cols = 0 then
        { bi with memories := make_empty_memory cfg bi.agents.length }
      else bi
    (fd ++ [(.memory_in, .mat bi.memories)], bi)
  else (fd, bi)

/-- Feed-dictionary construction of `SACPolicy.get_value_estimates`
(lines 236-250), together with the possibly mutated `BrainInfo`
(lines 244-245 seed `brain_info.memories` in place exactly as `evaluate`
does). -/
def gveFeed (cfg : PolicyConfig) (bi : BrainInfo) (idx : Nat) : FeedDict × BrainInfo :=
  let fd : FeedDict := [(.batch_size, .nat 1), (.sequence_length, .nat 1)]
  let fd := fd ++ (List.range bi.visual_observations.length).map
    (fun i => (ModelNode.visual_in i,
      FeedValue.imgs [(bi.visual_observations.getD i []).getD idx ⟨[], []⟩]))
  let fd :=
    if cfg.use_vec_obs then
      fd ++ [(.vector_in,
        .mat ⟨1, (bi.vector_observations.getD idx []).length,
              [bi.vector_observations.getD idx []]⟩)]
    else fd
  if cfg.use_recurrent then
    let bi :=
      if bi.memories.cols = 0 then
        { bi with memories := make_empty_memory cfg bi.agents.length }
      else bi
    let fd := fd ++ [(.memory_in, .mat ⟨1, (bi.memories.row idx).length, [bi.memories.row idx]⟩)]
    let fd :=
      if !cfg.use_continuous_act then
        fd ++ [(.prev_action,
          .arr (reshapeNeg1 [cfg.act_size.length]
            ⟨[(bi.previous_vector_actions.row idx).length], bi.previous_vector_actions.row idx⟩))]
      else fd
    (fd, bi)
  else (fd, bi)

/-- An experience minibatch: a Python dict from column name to numpy array.
Lookup of a missing key is a `KeyError`. -/
abbrev MiniBatch := List (String × NDArr)

/-- Dictionary lookup in a minibatch. -/
def mbLookup : MiniBatch → String → Option NDArr
  | [], _ => none
  | (k, v) :: rest, key => if k = key then some v else mbLookup rest key

/-- Python `mini_batch[key]`: raises `KeyError` when the column is absent. -/
def mbGet (mb : MiniBatch) (k : String) : Except String NDArr :=
  match mbLookup mb k with
  | some v => .ok v
  | none => .error ("KeyError: " ++ k)

/-- The reward-binding loop of `SACPolicy.update` (lines 171-174), with the
running `enumerate` counter made explicit: for name number `i` bind slot `i`
to `mini_batch[name + "_rewards"].flatten()`, failing on the first missing
column. -/
def buildRewardBindingsFrom (mb : MiniBatch) (i : Nat) : List String → Except String (List (Nat × NDArr))
  | [] => .ok []
  | name :: rest => do
    let v ← mbGet mb (name ++ "_rewards")
    let tl ← buildRewardBindingsFrom mb (i + 1) rest
    .ok ((i, v.flat) :: tl)

/-- Reward bindings of `update`: `for i, name in
enumerate(self.reward_signals.keys()): feed_dict[rewards_holders[i]] =
mini_batch["..._rewards"].flatten()` (lines 171-174). -/
def buildRewardBindings (cfg : PolicyConfig) (mb : MiniBatch) : Except String (List (Nat × NDArr)) :=
  buildRewardBindingsFrom mb 0 (rewardSignalsKeys cfg)

/-- Visual-observation binding of `update` (lines 200-205 and 208-215, the
same logic for a current-step and a next-step stream): when
`sequence_length > 1 and use_recurrent`, destructure the shape as
`(_batch, _seq, _w, _h, _c)` (an error unless 5-D) and reshape to
`[-1, _w, _h, _c]`; otherwise pass the array through unchanged. -/
def bindVisualObs (cfg : PolicyConfig) (obs : NDArr) : Except String NDArr :=
  if cfg.sequence_length > 1 && cfg.use_recurrent then
    match obs.shape with
    | [_b, _l, w, h, c] => .ok (reshapeNeg1 [w, h, c] obs)
    | _ => .error "ValueError: cannot unpack shape"
  else .ok obs

/-- The per-stream visual loop body of `update`: for each stream index `i` in
the given list, fetch column `keyBase + str(i)` and bind it (collapsed or
unchanged) to the node `mk i`. -/
def visBindingsAux (cfg : PolicyConfig) (mb : MiniBatch) (keyBase : String)
    (mk : Nat → ModelNode) : List Nat → Except String FeedDict
  | [] => .ok []
  | i :: rest => do
    let o ← mbGet mb (keyBase ++ toString i)
    let v ← bindVisualObs cfg o
    let tl ← visBindingsAux cfg mb keyBase mk rest
    .ok ((mk i, .arr v) :: tl)

/-- numpy `mini_batch["memory"][:, 0, :]`: for a 3-D array of shape
`(n, l, m)` take the first timestep of every sequence, yielding shape
`(n, m)`; an index error when the timestep axis is empty, a shape error when
the array is not 3-D. -/
def sliceFirstTimestep (a : NDArr) : Except String Mat :=
  match a.shape with
  | [n, l, m] =>
    if l = 0 then .error "IndexError: index 0 out of bounds"
    else .ok ⟨n, m, (List.range n).map (fun i => (List.range m).map (fun j => a.data.getD (i * l * m + j) 0))⟩
  | _ => .error "IndexError: too few dimensions"

/-- Feed-dictionary construction of `SACPolicy.update` (lines 166-219),
binding batch size, sequence length, padding mask, per-signal rewards,
actions (by action-space kind), previous actions and action masks (discrete),
vector observations and next-step counterparts, visual streams and next-step
counterparts, the first-timestep recurrent memory seed, and done flags, in
source order; any missing minibatch column fails the construction. -/
def updateFeedDict (cfg : PolicyConfig) (mb : MiniBatch) (num_sequences : Nat) :
    Except String FeedDict := do
  let masks ← mbGet mb "masks"
  let fd : FeedDict :=
    [(.batch_size, .nat num_sequences),
     (.sequence_length, .nat cfg.sequence_length),
     (.mask_input, .arr masks.flat)]
  let rb ← buildRewardBindings cfg mb
  let fd := fd ++ rb.map (fun p => (ModelNode.rewards_holders p.1, FeedValue.arr p.2))
  let actions ← mbGet mb "actions"
  let fd ←
    if cfg.use_continuous_act then
      pure (fd ++ [(ModelNode.action_holder,
        FeedValue.arr (reshapeNeg1 [cfg.act_size.getD 0 0] actions))])
    else do
      let fd := fd ++ [(ModelNode.action_holder,
        FeedValue.arr (reshapeNeg1 [cfg.act_size.length] actions))]
      let fd ←
        if cfg.use_recurrent then do
          let pa ← mbGet mb "prev_action"
          pure (fd ++ [(ModelNode.prev_action,
            FeedValue.arr (reshapeNeg1 [cfg.act_size.length] pa))])
        else pure fd
      let am ← mbGet mb "action_mask"
      pure (fd ++ [(ModelNode.action_masks,
        FeedValue.arr (reshapeNeg1 [cfg.act_size.sum] am))])
  let fd ←
    if cfg.use_vec_obs then do
      let vo ← mbGet mb "vector_obs"
      let nv ← mbGet mb "next_vector_in"
      pure (fd ++
        [(ModelNode.vector_in, FeedValue.arr (reshapeNeg1 [cfg.vec_obs_size] vo)),
         (ModelNode.next_vector_in, FeedValue.arr (reshapeNeg1 [cfg.vec_obs_size] nv))])
    else pure fd
  let fd ←
    if cfg.vis_obs_size > 0 then do
      let vis ← visBindingsAux cfg mb "visual_obs" ModelNode.visual_in (List.range cfg.vis_obs_size)
      let nvis ← visBindingsAux cfg mb "next_visual_obs" ModelNode.next_visual_in (List.range cfg.vis_obs_size)
      pure (fd ++ vis ++ nvis)
    else pure fd
  let fd ←
    if cfg.use_recurrent then do
      let mem ← mbGet mb "memory"
      let memMat ← sliceFirstTimestep mem
      pure (fd ++ [(ModelNode.memory_in, FeedValue.mat memMat)])
    else pure fd
  let done ← mbGet mb "done"
  pure (fd ++ [(ModelNode.dones_holder, FeedValue.arr done.flat)])

/-- The TensorFlow session state visible to this policy: the online and
target parameter vectors (abstracted to a single `Int` each — the claims are
about orchestration, not numerics), the persistent rolling reward scalar,
and a counter of `sess.run` executions. -/
structure SessState where
  online_params : Int
  target_params : Int
  last_reward : Int
  executions : Nat
deriving DecidableEq, Repr

/-- Keys of `self.update_dict` (lines 117-127), in insertion order. -/
def updateDictKeys : List String :=
  ["value_loss", "policy_loss", "q1_loss", "q2_loss", "entropy_coef",
   "entropy", "update_batch", "update_value", "update_entropy"]

/-- Execution of the main optimization pass
(`self._execute_model(feed_dict, self.update_dict)`, line 220): the external
engine applies one gradient step `stepf` to the online parameters. -/
def execUpdateModel (stepf : Int → FeedDict → Int) (s : SessState) (fd : FeedDict) : SessState :=
  { s with online_params := stepf s.online_params fd, executions := s.executions + 1 }

/-- Modelled from the spec: the Model's `target_update_op` lives in
`SACModel` (not in src); per the spec it performs a "Polyak-style exponential
moving average of target parameters toward online parameters", here an
abstract `polyak` of the current target and the current online parameters. -/
def runTargetUpdateOp (polyak : Int → Int → Int) (s : SessState) : SessState :=
  { s with target_params := polyak s.target_params s.online_params,
           executions := s.executions + 1 }

/-- `SACPolicy.update` (lines 159-226): build the feed dictionary, execute
the main update pass, then, when `update_target` is set, execute the
target-network soft-synchronization op; returns the update-output keys and
the resulting session state. -/
def update (cfg : PolicyConfig) (stepf : Int → FeedDict → Int) (polyak : Int → Int → Int)
    (s : SessState) (mb : MiniBatch) (num_sequences : Nat) (update_target : Bool) :
    Except String (List String × SessState) := do
  let fd ← updateFeedDict cfg mb num_sequences
  let s1 := execUpdateModel stepf s fd
  let s2 := if update_target then runTargetUpdateOp polyak s1 else s1
  .ok (updateDictKeys, s2)

/-- Keys of `self.inference_dict` (lines 98-115), in insertion order:
the base five outputs, then `memory_out` when recurrent, then `update_mean`
when `is_training and self.use_vec_obs and trainer_params["normalize"] and
not load`. -/
def inference_keys (cfg : PolicyConfig) : List String :=
  ["action", "log_probs", "value", "entropy", "learning_rate"]
    ++ (if cfg.use_recurrent then ["memory_out"] else [])
    ++ (if cfg.is_training && cfg.use_vec_obs && cfg.normalize && !cfg.load then
          ["update_mean"]
        else [])

/-- `SACPolicy.evaluate` (lines 129-157): build the inference feed frame
(possibly seeding the caller's memories in place), then run the external
model once on the inference outputs.  `exec` is the external engine. -/
def evaluate (cfg : PolicyConfig) (exec : FeedDict → List String → List (String × Int))
    (s : SessState) (bi : BrainInfo) :
    List (String × Int) × BrainInfo × SessState :=
  let p := evaluateFeed cfg bi
  (exec p.1 (inference_keys cfg), p.2, { s with executions := s.executions + 1 })

/-- `SACPolicy.get_value_estimates` (lines 228-252): build the single-agent
value frame (possibly seeding the caller's memories in place), then run the
value output once.  `execValue` is the external engine. -/
def get_value_estimates (cfg : PolicyConfig) (execValue : FeedDict → Int)
    (s : SessState) (bi : BrainInfo) (idx : Nat) : Int × BrainInfo × SessState :=
  let p := gveFeed cfg bi idx
  (execValue p.1, p.2, { s with executions := s.executions + 1 })

/-- A Python value as stored in an `ActionInfo` field. -/
inductive PyVal where
  | pyNone
  | pyList (xs : List Int)
  | pyInt (n : Int)
  | pyDict (d : List (String × Int))
deriving DecidableEq, Repr

/-- Python `run_out.get(key)`: the value when present, `None` otherwise. -/
def pyGet (d : List (String × Int)) (k : String) : PyVal :=
  match d.find? (fun p => p.1 == k) with
  | some p => .pyInt p.2
  | none => .pyNone

/-- The `ActionInfo` named tuple `(action, memory, text, value, outputs)`. -/
structure ActionInfo where
  action : PyVal
  memory : PyVal
  text : PyVal
  value : PyVal
  outputs : PyVal
deriving DecidableEq, Repr

/-- `SACPolicy.get_action` (lines 254-272): with zero agents return
`ActionInfo([], [], [], None, None)` immediately without touching the
session; otherwise delegate to `evaluate` and repackage its outputs. -/
def get_action (cfg : PolicyConfig) (exec : FeedDict → List String → List (String × Int))
    (s : SessState) (bi : BrainInfo) : ActionInfo × BrainInfo × SessState :=
  if bi.agents.length = 0 then
    (⟨.pyList [], .pyList [], .pyList [], .pyNone, .pyNone⟩, bi, s)
  else
    let r := evaluate cfg exec s bi
    (⟨pyGet r.1 "action", pyGet r.1 "memory_out", .pyNone, pyGet r.1 "value", .pyDict r.1⟩,
     r.2.1, r.2.2)

/-- `SACPolicy.get_last_reward` (lines 274-279): `sess.run` of the Model's
`last_reward` variable.  Modelled from the spec for the `SACModel` part (not
in src): reading the variable returns the persistent rolling-reward scalar
and writes nothing. -/
def get_last_reward (s : SessState) : Int × SessState :=
  (s.last_reward, { s with executions := s.executions + 1 })

/-- `SACPolicy.update_reward` (lines 281-288): `sess.run` of the Model's
`update_reward` op with `new_reward` bound.  Modelled from the spec for the
`SACModel` part (not in src): the op "overwrites the Rolling Reward Estimate
with the supplied value via a single parameter-binding write". -/
def update_reward (s : SessState) (new_reward : Int) : SessState :=
  { s with last_reward := new_reward, executions := s.executions + 1 }

/-! ### Concrete fixtures used by witnesses and counterexamples -/

/-- A minimal baseline configuration: continuous actions, no recurrence, no
vector or visual observations, a single `extrinsic` reward signal. -/
def cfg0 : PolicyConfig :=
  ⟨false, true, false, false, false, false, 0, 1, 0, [2], 0, ["extrinsic"], [1]⟩

/-- A configuration whose signal list names `curiosity` before `extrinsic`. -/
def cfgOrderSwap : PolicyConfig :=
  { cfg0 with reward_signals := ["curiosity", "extrinsic"], reward_strength := [1, 1] }

/-- A configuration naming `extrinsic` and `gail` in canonical order. -/
def cfgCanonicalPair : PolicyConfig :=
  { cfg0 with reward_signals := ["extrinsic", "gail"], reward_strength := [1, 1] }

/-- A recurrent configuration with sequence length 3. -/
def cfgSeq3 : PolicyConfig := { cfg0 with use_recurrent := true, sequence_length := 3 }

/-- A configuration with normalization on, training on, not loaded, but no
vector observations. -/
def cfgNoVecObs : PolicyConfig :=
  { cfg0 with normalize := true, is_training := true, load := false, use_vec_obs := false }

/-- A minibatch that carries a padding-mask column but no reward columns. -/
def mbNoRewards : MiniBatch := [("masks", ⟨[2], [1, 1]⟩)]

/-- A complete minibatch for `cfg0` with four single-step sequences. -/
def mbSmall : MiniBatch :=
  [("masks", ⟨[4], [1, 1, 1, 1]⟩), ("extrinsic_rewards", ⟨[4], [0, 1, 0, 1]⟩),
   ("actions", ⟨[4, 2], [0, 0, 0, 0, 0, 0, 0, 0]⟩), ("done", ⟨[4], [0, 0, 0, 1]⟩)]

/-- The feed dictionary `updateFeedDict cfg0 mbSmall 4` evaluates to. -/
def fdSmall : FeedDict :=
  [(.batch_size, .nat 4), (.sequence_length, .nat 1), (.mask_input, .arr ⟨[4], [1, 1, 1, 1]⟩),
   (.rewards_holders 0, .arr ⟨[4], [0, 1, 0, 1]⟩),
   (.action_holder, .arr ⟨[4, 2], [0, 0, 0, 0, 0, 0, 0, 0]⟩),
   (.dones_holder, .arr ⟨[4], [0, 0, 0, 1]⟩)]

/-- An observation batch with no agents. -/
def biEmpty : BrainInfo := ⟨[], [], [], ⟨0, 0, []⟩, ⟨0, 0, []⟩⟩

/-- A stub external execution engine for inference calls. -/
def execStub : FeedDict → List String → List (String × Int) :=
  fun _ _ => [("action", 7), ("value", 3)]

/-- A five-dimensional visual batch of shape (2, 3, 1, 1, 1). -/
def obsVis : NDArr := ⟨[2, 3, 1, 1, 1], [0, 1, 2, 3, 4, 5]⟩

/-- A recurrent configuration with memory size 2. -/
def cfgRec2 : PolicyConfig := { cfg0 with use_recurrent := true, m_size := 2 }

/-- A two-agent observation batch with one visual stream and an empty
(zero-width) memory placeholder. -/
def biTwo : BrainInfo :=
  ⟨[0, 1], [[5], [6]], [[⟨[1], [9]⟩, ⟨[1], [8]⟩]], ⟨2, 0, [[], []]⟩,
   ⟨2, 2, [[0, 0], [0, 0]]⟩⟩

/-! ### Helper lemmas -/

theorem exBind_ok {ε α β : Type} (x : α) (f : α → Except ε β) : (Except.ok x >>= f) = f x := rfl

theorem exBind_error {ε α β : Type} (e : ε) (f : α → Except ε β) :
    (Except.error e >>= f : Except ε β) = Except.error e := rfl

theorem fdLookup_skip (l1 l2 : FeedDict) (k : ModelNode) (h : ∀ p ∈ l1, p.1 ≠ k) :
    fdLookup (l1 ++ l2) k = fdLookup l2 k := by
  induction l1 with
  | nil => rfl
  | cons p rest ih =>
    have hp : p.1 ≠ k := h p (List.mem_cons_self _ _)
    cases p with
    | mk a b =>
      simp only [List.cons_append, fdLookup, if_neg hp]
      exact ih (fun q hq => h q (List.mem_cons_of_mem _ hq))

theorem fdLookup_split (fd pre post : FeedDict) (k : ModelNode) (v : FeedValue)
    (hsplit : fd = pre ++ (k, v) :: post) (hpre : ∀ p ∈ pre, p.1 ≠ k) :
    fdLookup fd k = some v := by
  subst hsplit
  rw [fdLookup_skip pre _ k hpre]
  simp [fdLookup]

theorem fdLookup_visual_map (f : Nat → FeedValue) (ns : List Nat) (i : Nat) (h : i ∈ ns) :
    fdLookup (ns.map fun j => (ModelNode.visual_in j, f j)) (ModelNode.visual_in i) = some (f i) := by
  induction ns with
  | nil => cases h
  | cons j rest ih =>
    by_cases hj : j = i
    · subst hj; simp [fdLookup]
    · have hmem : i ∈ rest := by
        rcases List.mem_cons.mp h with h1 | h1
        · exact absurd h1.symm hj
        · exact h1
      simp only [List.map_cons, fdLookup, ModelNode.visual_in.injEq]
      rw [if_neg hj]
      exact ih hmem

theorem filter_mem_eq_of_sublist {l r : List String} (h : List.Sublist l r) (hr : r.Nodup) :
    r.filter (fun a => decide (a ∈ l)) = l := by
  induction h with
  | slnil => rfl
  | cons a h ih =>
    rename_i l₁ l₂
    have hcons := List.nodup_cons.mp hr
    have hal : a ∉ l₁ := fun hmem => hcons.1 (h.subset hmem)
    simp [List.filter_cons, hal, ih hcons.2]
  | cons₂ a h ih =>
    rename_i l₁ l₂
    have hcons := List.nodup_cons.mp hr
    rw [List.filter_cons, if_pos (by simp)]
    congr 1
    rw [List.filter_congr (fun x hx => ?_), ih hcons.2]
    have hxa : x ≠ a := fun he => hcons.1 (he ▸ hx)
    exact decide_eq_decide.mpr (by simp [List.mem_cons, hxa])

theorem buildRewardBindingsFrom_ok_iff (mb : MiniBatch) :
    ∀ (names : List String) (i : Nat),
      (∃ bs, buildRewardBindingsFrom mb i names = .ok bs) ↔
        ∀ name ∈ names, (mbLookup mb (name ++ "_rewards")).isSome := by
  intro names
  induction names with
  | nil => intro i; simp [buildRewardBindingsFrom]
  | cons name rest ih =>
    intro i
    cases hlo : mbLookup mb (name ++ "_rewards") with
    | none =>
      apply iff_of_false
      · rintro ⟨bs, hb⟩
        simp [buildRewardBindingsFrom, mbGet, hlo, exBind_error] at hb
      · intro hall
        have := hall name (List.mem_cons_self _ _)
        rw [hlo] at this
        cases this
    | some v =>
      have hih := ih (i + 1)
      cases hrec : buildRewardBindingsFrom mb (i + 1) rest with
      | ok tl =>
        apply iff_of_true
        · exact ⟨(i, v.flat) :: tl,
            by simp [buildRewardBindingsFrom, mbGet, hlo, hrec, exBind_ok]⟩
        · intro x hx
          rcases List.mem_cons.mp hx with h1 | h1
          · subst h1; simp [hlo]
          · exact (hih.mp ⟨tl, hrec⟩) x h1
      | error e =>
        apply iff_of_false
        · rintro ⟨bs, hb⟩
          simp [buildRewardBindingsFrom, mbGet, hlo, hrec, exBind_ok, exBind_error] at hb
        · intro hall
          rcases hih.mpr (fun x hx => hall x (List.mem_cons_of_mem _ hx)) with ⟨bs, hb⟩
          rw [hrec] at hb
          cases hb

/-! ### Claims -/

/-- Claim C1 (counterexample): the claim as stated — that for every
configuration, including every ordering of configured signal names, each
registered name's reward column is bound at update to the slot assigned to
that name at construction — is false: with configuration order
`["curiosity", "extrinsic"]`, `curiosity` receives slot 0 at construction
(it heads `stream_names`) but slot 1 at update (the registry iterates in the
fixed order extrinsic-first). -/
theorem claim_C1_counterexample :
    "curiosity" ∈ rewardSignalsKeys cfgOrderSwap ∧
      updateSlot cfgOrderSwap "curiosity" ≠ constructionSlot cfgOrderSwap "curiosity" := by
  decide

/-- Claim C1 (amended): the name-to-index binding established at
construction is reused identically at update whenever the deduplicated
configured signal-name list contains only recognized names listed in the
canonical registration order (extrinsic, curiosity, gail, entropy), i.e. is
a sublist of that canonical list; for other orderings, or with unrecognized
names preceding recognized ones, the two bindings can disagree. -/
theorem claim_C1 (cfg : PolicyConfig)
    (h : List.Sublist (stream_names cfg) recognizedSignals) :
    ∀ name ∈ rewardSignalsKeys cfg, updateSlot cfg name = constructionSlot cfg name := by
  have hkeys : rewardSignalsKeys cfg = stream_names cfg := by
    unfold rewardSignalsKeys
    exact filter_mem_eq_of_sublist h (by decide)
  intro name _
  simp [updateSlot, constructionSlot, hkeys]

/-- Claim C1 (witness): a configuration naming `extrinsic` and `gail` in
canonical order satisfies the amended claim's hypothesis and conclusion. -/
theorem claim_C1_witness :
    List.Sublist (stream_names cfgCanonicalPair) recognizedSignals ∧
      updateSlot cfgCanonicalPair "gail" = constructionSlot cfgCanonicalPair "gail" :=
  ⟨by decide, claim_C1 cfgCanonicalPair (by decide) "gail" (by decide)⟩

/-- Claim C2: the reward-binding loop of `update` succeeds iff the minibatch
contains the column `name ++ "_rewards"` for every registered signal name
(columns beyond those are never consulted, so extras are tolerated), and
when any such column is missing the whole `update` call fails with an error
(no partial update: the `Except` short-circuits before any model
execution). -/
theorem claim_C2 (cfg : PolicyConfig) (mb : MiniBatch)
    (stepf : Int → FeedDict → Int) (polyak : Int → Int → Int)
    (s : SessState) (n : Nat) (ut : Bool) :
    ((∃ bs, buildRewardBindings cfg mb = .ok bs) ↔
      ∀ name ∈ rewardSignalsKeys cfg, (mbLookup mb (name ++ "_rewards")).isSome)
    ∧ ((¬ ∀ name ∈ rewardSignalsKeys cfg, (mbLookup mb (name ++ "_rewards")).isSome) →
        ∃ e, update cfg stepf polyak s mb n ut = .error e) := by
  have hiff := buildRewardBindingsFrom_ok_iff mb (rewardSignalsKeys cfg) 0
  refine ⟨by simpa [buildRewardBindings] using hiff, fun hmiss => ?_⟩
  have hrb : ∀ bs, buildRewardBindings cfg mb ≠ .ok bs := by
    intro bs hb
    exact hmiss (hiff.mp ⟨bs, hb⟩)
  cases hmask : mbGet mb "masks" with
  | error e => exact ⟨e, by simp [update, updateFeedDict, hmask, exBind_error]⟩
  | ok v =>
    cases hrbv : buildRewardBindings cfg mb with
    | ok bs => exact absurd hrbv (hrb bs)
    | error e =>
      exact ⟨e, by simp [update, updateFeedDict, hmask, hrbv, exBind_ok, exBind_error]⟩

/-- Claim C2 (witness): with only `extrinsic` registered and a minibatch
lacking `extrinsic_rewards`, `update` fails with an error. -/
theorem claim_C2_witness :
    ∃ e, update cfg0 (fun p _ => p) (fun t _ => t) ⟨0, 0, 0, 0⟩ mbNoRewards 1 true = .error e :=
  (claim_C2 cfg0 mbNoRewards (fun p _ => p) (fun t _ => t) ⟨0, 0, 0, 0⟩ 1 true).2 (by decide)

/-- Claim C3: with zero agents `get_action` returns the empty decision
`ActionInfo([], [], [], None, None)` at once, leaving both the batch and the
session untouched (no model execution); with at least one agent it delegates
to `evaluate` and repackages action, memory-out, value and the full raw
output map. -/
theorem claim_C3 (cfg : PolicyConfig) (exec : FeedDict → List String → List (String × Int))
    (s : SessState) (bi : BrainInfo) :
    (bi.agents.length = 0 →
      get_action cfg exec s bi =
        (⟨.pyList [], .pyList [], .pyList [], .pyNone, .pyNone⟩, bi, s))
    ∧ (bi.agents.length ≠ 0 →
      get_action cfg exec s bi =
        (⟨pyGet (evaluate cfg exec s bi).1 "action",
          pyGet (evaluate cfg exec s bi).1 "memory_out", .pyNone,
          pyGet (evaluate cfg exec s bi).1 "value",
          .pyDict (evaluate cfg exec s bi).1⟩,
         (evaluate cfg exec s bi).2.1, (evaluate cfg exec s bi).2.2)) := by
  constructor <;> intro h <;> simp [get_action, h]

/-- Claim C3 (witness): on the empty batch, `get_action` returns the empty
decision and the session execution counter is unchanged. -/
theorem claim_C3_witness :
    get_action cfg0 execStub ⟨0, 0, 0, 0⟩ biEmpty =
      (⟨.pyList [], .pyList [], .pyList [], .pyNone, .pyNone⟩, biEmpty, ⟨0, 0, 0, 0⟩) :=
  (claim_C3 cfg0 execStub ⟨0, 0, 0, 0⟩ biEmpty).1 rfl

/-- Claim C5: in `update`, a well-formed five-dimensional visual batch of
shape (B, L, W, H, C) is bound collapsed to (B·L, W, H, C) exactly when the
configured sequence length exceeds 1 and recurrent mode is on; with sequence
length 1 or recurrent mode off it is bound unchanged.  `bindVisualObs` is
the binding applied to every `visual_in i` and `next_visual_in i` stream in
`updateFeedDict`. -/
theorem claim_C5 (cfg : PolicyConfig) (obs : NDArr) (b l w h c : Nat)
    (hs : obs.shape = [b, l, w, h, c])
    (hd : obs.data.length = b * l * w * h * c) (hw : 0 < w * h * c) :
    (1 < cfg.sequence_length ∧ cfg.use_recurrent = true →
      bindVisualObs cfg obs = .ok ⟨[b * l, w, h, c], obs.data⟩)
    ∧ (cfg.sequence_length = 1 ∨ cfg.use_recurrent = false →
      bindVisualObs cfg obs = .ok obs) := by
  constructor
  · rintro ⟨h1, h2⟩
    have hdiv : obs.data.length / (w * (h * c)) = b * l := by
      have hw2 : 0 < w * (h * c) := by rwa [← Nat.mul_assoc]
      rw [hd]
      have harr : b * l * w * h * c = b * l * (w * (h * c)) := by ring
      rw [harr]
      exact Nat.mul_div_cancel _ hw2
    simp [bindVisualObs, h1, h2, hs, reshapeNeg1, hdiv]
  · rintro (h1 | h2)
    · simp [bindVisualObs, h1]
    · simp [bindVisualObs, h2]

/-- Claim C5 (witness): a (2, 3, 1, 1, 1) batch collapses to (6, 1, 1, 1)
under a recurrent length-3 configuration and passes through unchanged under
the non-recurrent length-1 one. -/
theorem claim_C5_witness :
    bindVisualObs cfgSeq3 obsVis = .ok ⟨[6, 1, 1, 1], obsVis.data⟩ ∧
      bindVisualObs cfg0 obsVis = .ok obsVis :=
  ⟨(claim_C5 cfgSeq3 obsVis 2 3 1 1 1 rfl rfl (by decide)).1 ⟨by decide, rfl⟩,
   (claim_C5 cfg0 obsVis 2 3 1 1 1 rfl rfl (by decide)).2 (Or.inl rfl)⟩

/-- Claim C6: whenever the update feed frame is built successfully, the call
with `update_target = true` first executes the main optimization pass (one
`stepf` application to the online parameters) and then the target sync,
whose Polyak step reads the already-updated online parameters; with
`update_target = false` the target parameters are untouched and only the
single main execution happens. -/
theorem claim_C6 (cfg : PolicyConfig) (stepf : Int → FeedDict → Int) (polyak : Int → Int → Int)
    (s : SessState) (mb : MiniBatch) (n : Nat) (fd : FeedDict)
    (h : updateFeedDict cfg mb n = .ok fd) :
    update cfg stepf polyak s mb n true =
      .ok (updateDictKeys,
        ⟨stepf s.online_params fd, polyak s.target_params (stepf s.online_params fd),
         s.last_reward, s.executions + 2⟩)
    ∧ update cfg stepf polyak s mb n false =
      .ok (updateDictKeys,
        ⟨stepf s.online_params fd, s.target_params, s.last_reward, s.executions + 1⟩) := by
  constructor <;>
    simp [update, h, exBind_ok, execUpdateModel, runTargetUpdateOp]

/-- Claim C6 (witness): on a concrete batch the target parameters after
`update` with target sync equal the Polyak combination with the new online
parameters, and the session records exactly two executions. -/
theorem claim_C6_witness :
    update cfg0 (fun p _ => p + 1) (fun t o => t + o) ⟨0, 5, 0, 0⟩ mbSmall 4 true =
      .ok (updateDictKeys, ⟨1, 6, 0, 2⟩) :=
  (claim_C6 cfg0 (fun p _ => p + 1) (fun t o => t + o) ⟨0, 5, 0, 0⟩ mbSmall 4 fdSmall
    (by rfl)).1

/-- Claim C7: `update_reward x` followed by `get_last_reward` returns exactly
`x` (replacement, not accumulation), and `get_last_reward` is a pure read of
the estimate: consecutive reads agree and leave the stored value unchanged. -/
theorem claim_C7 (s : SessState) (x : Int) :
    (get_last_reward (update_reward s x)).1 = x
    ∧ (get_last_reward s).1 = (get_last_reward (get_last_reward s).2).1
    ∧ (get_last_reward s).2.last_reward = s.last_reward :=
  ⟨rfl, rfl, rfl⟩

/-- Claim C8 (counterexample): the claim that the normalization-update
signal is requested exactly when normalization is enabled, training is
active and the session is not loaded is false: it additionally requires
vector observations, so a configuration with `use_vec_obs = false` meets all
three stated conditions yet omits `update_mean`. -/
theorem claim_C8_counterexample :
    cfgNoVecObs.normalize = true ∧ cfgNoVecObs.is_training = true ∧
      cfgNoVecObs.load = false ∧ "update_mean" ∉ inference_keys cfgNoVecObs := by
  decide

/-- Claim C8 (amended): `update_mean` is among the outputs requested by
`evaluate` iff training is active, vector observations are in use,
normalization is enabled, and the session is not a loaded one. -/
theorem claim_C8 (cfg : PolicyConfig) :
    "update_mean" ∈ inference_keys cfg ↔
      (cfg.is_training = true ∧ cfg.use_vec_obs = true ∧ cfg.normalize = true ∧
       cfg.load = false) := by
  obtain ⟨ur, uc, uv, nz, it, ld, ms, sl, vs, az, vo, rs, rst⟩ := cfg
  cases ur <;> cases uv <;> cases nz <;> cases it <;> cases ld <;> simp [inference_keys]

theorem make_empty_memory_isZero (cfg : PolicyConfig) (n : Nat) :
    (make_empty_memory cfg n).isZero = true := by
  simp [make_empty_memory, Mat.isZero, List.all_eq_true, List.mem_replicate]

theorem make_empty_memory_row (cfg : PolicyConfig) (n idx : Nat) (h : idx < n) :
    (make_empty_memory cfg n).row idx = List.replicate cfg.m_size 0 := by
  simp [make_empty_memory, Mat.row, List.getD, List.getElem?_replicate_of_lt h]

theorem fdLookup_skip_visMap (g : Nat → FeedValue) (ns : List Nat) (l2 : FeedDict)
    (k : ModelNode) (hk : ∀ j, k ≠ ModelNode.visual_in j) :
    fdLookup ((ns.map fun j => (ModelNode.visual_in j, g j)) ++ l2) k = fdLookup l2 k := by
  apply fdLookup_skip
  intro p hp
  rcases List.mem_map.mp hp with ⟨j, _, rfl⟩
  exact fun he => hk j he.symm

theorem fdLookup_append_some (l1 l2 : FeedDict) (k : ModelNode) (v : FeedValue)
    (h : fdLookup l1 k = some v) : fdLookup (l1 ++ l2) k = some v := by
  induction l1 with
  | nil => cases h
  | cons p rest ih =>
    cases p with
    | mk a b =>
      by_cases ha : a = k
      · simpa [fdLookup, ha] using h
      · rw [List.cons_append]
        simp only [fdLookup, if_neg ha] at h ⊢
        exact ih h

/-- Claim C4 (counterexample): the claim that the effective memory-in bound
by `get_value_estimates` has shape (agentCount, memorySize) is false: for a
two-agent recurrent batch with an empty memory placeholder, the memory-in
binding of `get_value_estimates` is the single seeded row, a (1, 2) matrix,
not the (2, 2) seed. -/
theorem claim_C4_counterexample :
    biTwo.agents.length = 2 ∧ cfgRec2.m_size = 2 ∧ cfgRec2.use_recurrent = true ∧
      biTwo.memories.cols = 0 ∧
      fdLookup (gveFeed cfgRec2 biTwo 0).1 .memory_in ≠
        some (.mat (make_empty_memory cfgRec2 biTwo.agents.length)) ∧
      fdLookup (gveFeed cfgRec2 biTwo 0).1 .memory_in = some (.mat ⟨1, 2, [[0, 0]]⟩) := by
  decide

/-- Claim C4 (amended): in recurrent mode, when the supplied memory has zero
width both `evaluate` and `get_value_estimates` first replace it in place by
the zero-initialized (agentCount, memorySize) seed; `evaluate` then binds the
whole seed as memory-in (shape (agentCount, memorySize), all-zero), while
`get_value_estimates` binds only the requested agent's seeded row, a
(1, memorySize) all-zero matrix.  A non-empty supplied memory is bound
unchanged by `evaluate`, and `get_value_estimates` binds its `idx`-th row. -/
theorem claim_C4 (cfg : PolicyConfig) (bi : BrainInfo) (idx : Nat)
    (hrec : cfg.use_recurrent = true) (hidx : idx < bi.agents.length) :
    (bi.memories.cols = 0 →
      (evaluateFeed cfg bi).2.memories = make_empty_memory cfg bi.agents.length
      ∧ fdLookup (evaluateFeed cfg bi).1 .memory_in
          = some (.mat (make_empty_memory cfg bi.agents.length))
      ∧ (make_empty_memory cfg bi.agents.length).rows = bi.agents.length
      ∧ (make_empty_memory cfg bi.agents.length).cols = cfg.m_size
      ∧ (make_empty_memory cfg bi.agents.length).isZero = true
      ∧ (gveFeed cfg bi idx).2.memories = make_empty_memory cfg bi.agents.length
      ∧ fdLookup (gveFeed cfg bi idx).1 .memory_in
          = some (.mat ⟨1, cfg.m_size, [List.replicate cfg.m_size 0]⟩))
    ∧ (bi.memories.cols ≠ 0 →
      fdLookup (evaluateFeed cfg bi).1 .memory_in = some (.mat bi.memories)
      ∧ (evaluateFeed cfg bi).2 = bi
      ∧ fdLookup (gveFeed cfg bi idx).1 .memory_in
          = some (.mat ⟨1, (bi.memories.row idx).length, [bi.memories.row idx]⟩)) := by
  constructor
  · intro h0
    have hseedrow : (make_empty_memory cfg bi.agents.length).row idx
        = List.replicate cfg.m_size 0 :=
      make_empty_memory_row cfg bi.agents.length idx hidx
    refine ⟨?_, ?_, rfl, rfl, make_empty_memory_isZero cfg bi.agents.length, ?_, ?_⟩
    · by_cases hca : cfg.use_continuous_act <;> simp [evaluateFeed, hrec, h0, hca]
    · by_cases hca : cfg.use_continuous_act <;>
        simp [evaluateFeed, hrec, h0, hca, fdLookup]
    · by_cases hca : cfg.use_continuous_act <;> by_cases hv : cfg.use_vec_obs <;>
        simp [gveFeed, hrec, h0, hca, hv]
    · by_cases hca : cfg.use_continuous_act <;> by_cases hv : cfg.use_vec_obs <;>
        simp [gveFeed, hrec, h0, hca, hv, fdLookup, fdLookup_skip_visMap,
              List.append_assoc, hseedrow]
  · intro h0
    refine ⟨?_, ?_, ?_⟩
    · by_cases hca : cfg.use_continuous_act <;>
        simp [evaluateFeed, hrec, h0, hca, fdLookup]
    · by_cases hca : cfg.use_continuous_act <;> simp [evaluateFeed, hrec, h0, hca]
    · by_cases hca : cfg.use_continuous_act <;> by_cases hv : cfg.use_vec_obs <;>
        simp [gveFeed, hrec, h0, hca, hv, fdLookup, fdLookup_skip_visMap,
              List.append_assoc]

/-- Claim C4 (witness): on the concrete two-agent batch, `evaluate` seeds
and binds the full (2, 2) zero matrix and `get_value_estimates` seeds the
batch identically while binding its zero row. -/
theorem claim_C4_witness :
    (evaluateFeed cfgRec2 biTwo).2.memories = make_empty_memory cfgRec2 2
    ∧ fdLookup (evaluateFeed cfgRec2 biTwo).1 .memory_in
        = some (.mat (make_empty_memory cfgRec2 2))
    ∧ fdLookup (gveFeed cfgRec2 biTwo 0).1 .memory_in
        = some (.mat ⟨1, 2, [List.replicate 2 0]⟩) :=
  have h := (claim_C4 cfgRec2 biTwo 0 rfl (by decide)).1 rfl
  ⟨h.1, h.2.1, h.2.2.2.2.2.2⟩

/-- Claim C9: under the documented batch invariant (vector-observation row
count = agent count), the frame built by `evaluate` binds batch size = agent
count and sequence length 1, and the frame built by `get_value_estimates`
always binds batch size 1 and sequence length 1 with vector, visual and
memory bindings scoped to the single requested index (the memory scoping is
the subject of claim C4). -/
theorem claim_C9 (cfg : PolicyConfig) (bi : BrainInfo) (idx : Nat)
    (hconsist : bi.vector_observations.length = bi.agents.length) :
    fdLookup (evaluateFeed cfg bi).1 .batch_size = some (.nat bi.agents.length)
    ∧ fdLookup (evaluateFeed cfg bi).1 .sequence_length = some (.nat 1)
    ∧ fdLookup (gveFeed cfg bi idx).1 .batch_size = some (.nat 1)
    ∧ fdLookup (gveFeed cfg bi idx).1 .sequence_length = some (.nat 1)
    ∧ (cfg.use_vec_obs = true →
        fdLookup (gveFeed cfg bi idx).1 .vector_in =
          some (.mat ⟨1, (bi.vector_observations.getD idx []).length,
                      [bi.vector_observations.getD idx []]⟩))
    ∧ (∀ i, i < bi.visual_observations.length →
        fdLookup (gveFeed cfg bi idx).1 (.visual_in i) =
          some (.imgs [(bi.visual_observations.getD i []).getD idx ⟨[], []⟩])) := by
  refine ⟨?_, ?_, ?_, ?_, ?_, ?_⟩
  · by_cases hr : cfg.use_recurrent <;> by_cases hca : cfg.use_continuous_act <;>
      simp [evaluateFeed, hr, hca, fdLookup, hconsist]
  · by_cases hr : cfg.use_recurrent <;> by_cases hca : cfg.use_continuous_act <;>
      simp [evaluateFeed, hr, hca, fdLookup]
  · by_cases hr : cfg.use_recurrent <;> by_cases hca : cfg.use_continuous_act <;>
      by_cases hv : cfg.use_vec_obs <;>
      simp [gveFeed, hr, hca, hv, fdLookup, List.append_assoc]
  · by_cases hr : cfg.use_recurrent <;> by_cases hca : cfg.use_continuous_act <;>
      by_cases hv : cfg.use_vec_obs <;>
      simp [gveFeed, hr, hca, hv, fdLookup, List.append_assoc]
  · intro hv
    by_cases hr : cfg.use_recurrent <;> by_cases hca : cfg.use_continuous_act <;>
      simp [gveFeed, hr, hca, hv, fdLookup, fdLookup_skip_visMap, List.append_assoc]
  · intro i hi
    by_cases hr : cfg.use_recurrent <;> by_cases hca : cfg.use_continuous_act <;>
      by_cases hv : cfg.use_vec_obs <;>
      · simp only [gveFeed, hr, hca, hv, Bool.not_true, Bool.not_false, if_true, if_false,
          ite_true, ite_false, List.append_assoc, List.cons_append, List.nil_append]
        simp only [fdLookup]
        rw [if_neg (fun hne => ModelNode.noConfusion hne),
            if_neg (fun hne => ModelNode.noConfusion hne)]
        first
        | exact fdLookup_append_some _ _ _ _
            (fdLookup_visual_map _ _ i (List.mem_range.mpr hi))
        | exact fdLookup_visual_map _ _ i (List.mem_range.mpr hi)

/-- Claim C9 (witness): on the concrete two-agent batch, `evaluate` binds
batch size 2 while `get_value_estimates` for index 1 binds batch size 1 and
the second agent's visual observation. -/
theorem claim_C9_witness :
    fdLookup (evaluateFeed cfgRec2 biTwo).1 .batch_size = some (.nat 2)
    ∧ fdLookup (gveFeed cfgRec2 biTwo 1).1 .batch_size = some (.nat 1)
    ∧ fdLookup (gveFeed cfgRec2 biTwo 1).1 (.visual_in 0) = some (.imgs [⟨[1], [8]⟩]) :=
  have h := claim_C9 cfgRec2 biTwo 1 rfl
  ⟨h.1, h.2.2.1, h.2.2.2.2.2 0 (by decide)⟩

/-- Claim C10: in recurrent mode with an empty memory placeholder, both
`evaluate` and `get_value_estimates` return the caller's batch with its
memories field overwritten by the zero seed and every other field unchanged,
so (the memory width being positive) the batch is observably mutated across
the call. -/
theorem claim_C10 (cfg : PolicyConfig) (bi : BrainInfo) (idx : Nat)
    (hrec : cfg.use_recurrent = true) (h0 : bi.memories.cols = 0)
    (hm : 0 < cfg.m_size) :
    (evaluateFeed cfg bi).2 = { bi with memories := make_empty_memory cfg bi.agents.length }
    ∧ (gveFeed cfg bi idx).2 = { bi with memories := make_empty_memory cfg bi.agents.length }
    ∧ (evaluateFeed cfg bi).2 ≠ bi
    ∧ (gveFeed cfg bi idx).2 ≠ bi := by
  have hmem : make_empty_memory cfg bi.agents.length ≠ bi.memories := by
    intro he
    have hc : (make_empty_memory cfg bi.agents.length).cols = bi.memories.cols := by rw [he]
    rw [h0] at hc
    simp [make_empty_memory] at hc
    omega
  have h1 : (evaluateFeed cfg bi).2
      = { bi with memories := make_empty_memory cfg bi.agents.length } := by
    by_cases hca : cfg.use_continuous_act <;> simp [evaluateFeed, hrec, h0, hca]
  have h2 : (gveFeed cfg bi idx).2
      = { bi with memories := make_empty_memory cfg bi.agents.length } := by
    by_cases hca : cfg.use_continuous_act <;> by_cases hv : cfg.use_vec_obs <;>
      simp [gveFeed, hrec, h0, hca, hv]
  refine ⟨h1, h2, ?_, ?_⟩
  · rw [h1]
    intro he
    exact hmem (congrArg BrainInfo.memories he)
  · rw [h2]
    intro he
    exact hmem (congrArg BrainInfo.memories he)

/-- Claim C10 (witness): the concrete two-agent batch comes back from
`evaluate` with only its memories replaced, and differs from the input. -/
theorem claim_C10_witness :
    (evaluateFeed cfgRec2 biTwo).2 = { biTwo with memories := make_empty_memory cfgRec2 2 }
    ∧ (evaluateFeed cfgRec2 biTwo).2 ≠ biTwo :=
  have h := claim_C10 cfgRec2 biTwo 0 rfl rfl (by decide)
  ⟨h.1, h.2.2.1⟩
